import Mathlib

/-!
Verification development for the color derivation pipeline of the
figma-palette-generator plugin (src/code.ts).  The TypeScript functions are
shallowly embedded over exact rational arithmetic: every `number` becomes a
`ℚ`, JavaScript's remainder operator `%` becomes `jsMod` (remainder with
truncation toward zero), and object types become structures.
-/

namespace Palette

/-- RGB triple, channels in the 0..1 range (the `RGB` interface of the plugin). -/
structure RGB where
  r : ℚ
  g : ℚ
  b : ℚ
deriving DecidableEq

/-- Result record of `rgbToHsl`: hue in degrees, saturation and lightness in 0..1. -/
structure HSL where
  h : ℚ
  s : ℚ
  l : ℚ
deriving DecidableEq

/-- Truncation toward zero, the rounding used by JavaScript's `%` operator. -/
def truncQ (q : ℚ) : ℤ := if 0 ≤ q then ⌊q⌋ else ⌈q⌉

/-- JavaScript remainder `a % n` on numbers: `a - n * trunc (a / n)`. -/
def jsMod (a n : ℚ) : ℚ := a - n * (truncQ (a / n) : ℚ)

/-- `rgbToHsl` (src/code.ts line 2054): standard max/min formula; the hue switch
mirrors the JS `switch (max)` which compares against `r`, then `g`, then `b`. -/
def rgbToHsl (r g b : ℚ) : HSL :=
  let mx := max r (max g b)
  let mn := min r (min g b)
  let l := (mx + mn) / 2
  if mx = mn then ⟨0, 0, l⟩
  else
    let d := mx - mn
    let s := if l > 1 / 2 then d / (2 - mx - mn) else d / (mx + mn)
    let h :=
      if mx = r then (g - b) / d + (if g < b then 6 else 0)
      else if mx = g then (b - r) / d + 2
      else (r - g) / d + 4
    ⟨h / 6 * 360, s, l⟩

/-- The local `c` of `hslToRgb` (src/code.ts line 1013). -/
def chroma (s l : ℚ) : ℚ := (1 - |2 * l - 1|) * s

/-- The local `x` of `hslToRgb` (src/code.ts line 1014). -/
def xval (h s l : ℚ) : ℚ := chroma s l * (1 - |jsMod (h / 60) 2 - 1|)

/-- The local `m` of `hslToRgb` (src/code.ts line 1015). -/
def mval (s l : ℚ) : ℚ := l - chroma s l / 2

/-- `hslToRgb` (src/code.ts line 1012): hue expected in degrees; the if chain
mirrors the JS 60-degree segment branches, the final else catching everything
outside the first five segments. -/
def hslToRgb (h s l : ℚ) : RGB :=
  if 0 ≤ h ∧ h < 60 then ⟨chroma s l + mval s l, xval h s l + mval s l, mval s l⟩
  else if 60 ≤ h ∧ h < 120 then ⟨xval h s l + mval s l, chroma s l + mval s l, mval s l⟩
  else if 120 ≤ h ∧ h < 180 then ⟨mval s l, chroma s l + mval s l, xval h s l + mval s l⟩
  else if 180 ≤ h ∧ h < 240 then ⟨mval s l, xval h s l + mval s l, chroma s l + mval s l⟩
  else if 240 ≤ h ∧ h < 300 then ⟨xval h s l + mval s l, mval s l, chroma s l + mval s l⟩
  else ⟨chroma s l + mval s l, mval s l, xval h s l + mval s l⟩

/-- `lightenColor` (src/code.ts line 1977). -/
def lightenColor (color : RGB) (amount : ℚ) : RGB :=
  ⟨min 1 (color.r + (1 - color.r) * amount),
   min 1 (color.g + (1 - color.g) * amount),
   min 1 (color.b + (1 - color.b) * amount)⟩

/-- `darkenColor` (src/code.ts line 1985). -/
def darkenColor (color : RGB) (amount : ℚ) : RGB :=
  ⟨max 0 (color.r * (1 - amount)),
   max 0 (color.g * (1 - amount)),
   max 0 (color.b * (1 - amount))⟩

/-- `clamp` (src/code.ts line 1122). -/
def clamp (value mn mx : ℚ) : ℚ := max mn (min mx value)

/-- `buildColorFamilyFromPrimary` (src/code.ts line 1098): saturation and
lightness floors, complementary secondary (+180°), near-analogous tertiary (+20°). -/
def buildColorFamilyFromPrimary (primary : RGB) : RGB × RGB × RGB :=
  let hsl := rgbToHsl primary.r primary.g primary.b
  let baseS := max 0.85 (min 1 hsl.s)
  let baseL := clamp hsl.l 0.48 0.60
  let normalizedPrimary := hslToRgb hsl.h baseS baseL
  let secHue := jsMod (hsl.h + 180) 360
  let secS := max 0.8 baseS
  let secL := clamp baseL 0.48 0.60
  let secondary := hslToRgb secHue secS secL
  let tertHue := jsMod (hsl.h + 20) 360
  let tertS := max 0.8 baseS
  let tertL := clamp baseL 0.48 0.60
  let tertiary := hslToRgb tertHue tertS tertL
  (normalizedPrimary, secondary, tertiary)

/-- `SelectedColors` interface (src/code.ts line 2082). -/
structure SelectedColors where
  primary : RGB
  secondary : RGB
  tertiary : RGB
deriving DecidableEq

/-- `PaletteSettings` interface (src/code.ts line 2140). -/
structure PaletteSettings where
  scaleSteps : ℚ
  accessibility : Bool
  harmonyTypes : List String
deriving DecidableEq

/-- `ColorScale` interface (src/code.ts line 2101): step label to RGB, as an
association list in insertion order. -/
abbrev ColorScale := List (String × RGB)

/-- `ColorHarmonies` interface (src/code.ts line 2105). -/
structure ColorHarmonies where
  analogous : List RGB
  complementary : List RGB
  triadic : List RGB
  splitComplementary : List RGB
deriving DecidableEq

/-- `HarmonyColor` interface (src/code.ts line 406). -/
structure HarmonyColor where
  name : String
  colors : List RGB
deriving DecidableEq

/-- `PaletteData` interface (src/code.ts line 2088). -/
structure PaletteData where
  primary : RGB
  secondary : RGB
  tertiary : RGB
  scales : List ColorScale
  harmonies : ColorHarmonies
  lightMode : List RGB
  darkMode : List RGB
  accessibleLight : List RGB
  accessibleDark : List RGB
  monotoneScale : List RGB
deriving DecidableEq

/-- `generateColorScales` (src/code.ts line 1155): per color, the step map for
5, 9 or 13 steps; any other step count falls back to the 9-step map. -/
def generateColorScales (colors : List RGB) (scaleSteps : ℚ) : List ColorScale :=
  colors.map fun color =>
    if scaleSteps = 5 then
      [("100", lightenColor color 0.8), ("300", lightenColor color 0.4),
       ("500", color), ("700", darkenColor color 0.4), ("900", darkenColor color 0.8)]
    else if scaleSteps = 9 then
      [("100", lightenColor color 0.8), ("200", lightenColor color 0.6),
       ("300", lightenColor color 0.4), ("400", lightenColor color 0.2),
       ("500", color), ("600", darkenColor color 0.2), ("700", darkenColor color 0.4),
       ("800", darkenColor color 0.6), ("900", darkenColor color 0.8)]
    else if scaleSteps = 13 then
      [("000", lightenColor color 0.95), ("050", lightenColor color 0.9),
       ("100", lightenColor color 0.8), ("200", lightenColor color 0.6),
       ("300", lightenColor color 0.4), ("400", lightenColor color 0.2),
       ("500", color), ("600", darkenColor color 0.2), ("700", darkenColor color 0.4),
       ("800", darkenColor color 0.6), ("900", darkenColor color 0.8),
       ("950", darkenColor color 0.9), ("999", darkenColor color 0.95)]
    else
      [("100", lightenColor color 0.8), ("200", lightenColor color 0.6),
       ("300", lightenColor color 0.4), ("400", lightenColor color 0.2),
       ("500", color), ("600", darkenColor color 0.2), ("700", darkenColor color 0.4),
       ("800", darkenColor color 0.6), ("900", darkenColor color 0.8)]

/-- `generateModeSpecificPalettes` (src/code.ts line 1213): five light and five
dark variants per family color, flattened family-major. -/
def generateModeSpecificPalettes (colors : List RGB) : List RGB × List RGB :=
  (colors.bind fun color =>
     [lightenColor color 0.9, lightenColor color 0.7, lightenColor color 0.5,
      lightenColor color 0.3, darkenColor color 0.1],
   colors.bind fun color =>
     [lightenColor color 0.8, lightenColor color 0.6, color,
      darkenColor color 0.3, darkenColor color 0.6])

/-- `generateAccessiblePalettes` (src/code.ts line 1246). -/
def generateAccessiblePalettes (colors : List RGB) : List RGB × List RGB :=
  (colors.bind fun color =>
     [lightenColor color 0.95, lightenColor color 0.8, lightenColor color 0.6,
      lightenColor color 0.4, darkenColor color 0.2],
   colors.bind fun color =>
     [lightenColor color 0.9, lightenColor color 0.7, lightenColor color 0.5,
      lightenColor color 0.3, darkenColor color 0.1])

/-- Mode selector for `generateModeColors` (its string union argument). -/
inductive Mode where
  | light
  | dark
deriving DecidableEq

/-- `generateModeColors` (src/code.ts line 455): one adjusted color per input. -/
def generateModeColors (colors : List RGB) (mode : Mode) : List RGB :=
  colors.map fun color =>
    let hsl := rgbToHsl color.r color.g color.b
    match mode with
    | Mode.light => hslToRgb hsl.h (hsl.s * 0.9) (min (hsl.l * 1.2) 0.9)
    | Mode.dark => hslToRgb hsl.h (min (hsl.s * 1.1) 1) (hsl.l * 0.8)

/-- `generateHarmonyColorsFromPrimary` (src/code.ts line 411).  The source
divides each degree hue by 360 before calling the degree-based `hslToRgb`;
the division is reproduced verbatim here. -/
def generateHarmonyColorsFromPrimary (primaryColor : RGB) (harmonyTypes : List String) :
    List HarmonyColor :=
  let primaryHsl := rgbToHsl primaryColor.r primaryColor.g primaryColor.b
  (if harmonyTypes.contains "analogous" then
    [⟨"Analogous",
      [hslToRgb (jsMod (primaryHsl.h - 30 + 360) 360 / 360) primaryHsl.s primaryHsl.l,
       primaryColor,
       hslToRgb (jsMod (primaryHsl.h + 30) 360 / 360) primaryHsl.s primaryHsl.l]⟩]
   else []) ++
  (if harmonyTypes.contains "complementary" then
    [⟨"Complementary",
      [hslToRgb (jsMod (primaryHsl.h + 180) 360 / 360) primaryHsl.s primaryHsl.l]⟩]
   else []) ++
  (if harmonyTypes.contains "triadic" then
    [⟨"Triadic",
      [primaryColor,
       hslToRgb (jsMod (primaryHsl.h + 120) 360 / 360) primaryHsl.s primaryHsl.l,
       hslToRgb (jsMod (primaryHsl.h + 240) 360 / 360) primaryHsl.s primaryHsl.l]⟩]
   else []) ++
  (if harmonyTypes.contains "splitComplementary" then
    [⟨"Split-Complementary",
      [primaryColor,
       hslToRgb (jsMod (primaryHsl.h + 150) 360 / 360) primaryHsl.s primaryHsl.l,
       hslToRgb (jsMod (primaryHsl.h + 210) 360 / 360) primaryHsl.s primaryHsl.l]⟩]
   else [])

/-- Field replacement helpers for `convertToHarmonies` (plain constructors). -/
def setAnalogous (h : ColorHarmonies) (cs : List RGB) : ColorHarmonies :=
  ⟨cs, h.complementary, h.triadic, h.splitComplementary⟩

def setComplementary (h : ColorHarmonies) (cs : List RGB) : ColorHarmonies :=
  ⟨h.analogous, cs, h.triadic, h.splitComplementary⟩

def setTriadic (h : ColorHarmonies) (cs : List RGB) : ColorHarmonies :=
  ⟨h.analogous, h.complementary, cs, h.splitComplementary⟩

def setSplitComplementary (h : ColorHarmonies) (cs : List RGB) : ColorHarmonies :=
  ⟨h.analogous, h.complementary, h.triadic, cs⟩

/-- `convertToHarmonies` (src/code.ts line 472): dispatch on the lowercased
harmony name; unknown names leave the record unchanged. -/
def convertToHarmonies (harmonies : List HarmonyColor) : ColorHarmonies :=
  harmonies.foldl
    (fun result harmony =>
      if harmony.name.toLower = "analogous" then setAnalogous result harmony.colors
      else if harmony.name.toLower = "complementary" then
        setComplementary result harmony.colors
      else if harmony.name.toLower = "triadic" then setTriadic result harmony.colors
      else if harmony.name.toLower = "split-complementary" then
        setSplitComplementary result harmony.colors
      else result)
    ⟨[], [], [], []⟩

/-- `generateSimpleMonotoneScale` (src/code.ts line 503). -/
def generateSimpleMonotoneScale : List RGB :=
  [⟨1, 1, 1⟩, ⟨0.9, 0.9, 0.9⟩, ⟨0.7, 0.7, 0.7⟩, ⟨0.5, 0.5, 0.5⟩, ⟨0.3, 0.3, 0.3⟩,
   ⟨0, 0, 0⟩]

/-- `generateAccessibleColors` (src/code.ts line 517): documented placeholder
that returns its input unchanged. -/
def generateAccessibleColors (colors : List RGB) : List RGB :=
  colors

/-- `generateColorPaletteFromSelectedColors` (src/code.ts line 357). -/
def generateColorPaletteFromSelectedColors (selectedColors : SelectedColors)
    (settings : PaletteSettings) : PaletteData :=
  let primary := selectedColors.primary
  let secondary := selectedColors.secondary
  let tertiary := selectedColors.tertiary
  let brandColors := [primary, secondary, tertiary]
  let colorScales := generateColorScales brandColors settings.scaleSteps
  let harmonyColors := generateHarmonyColorsFromPrimary primary settings.harmonyTypes
  let lightMode := generateModeColors brandColors Mode.light
  let darkMode := generateModeColors brandColors Mode.dark
  let accessibleLight :=
    if settings.accessibility then generateAccessibleColors lightMode else lightMode
  let accessibleDark :=
    if settings.accessibility then generateAccessibleColors darkMode else darkMode
  ⟨primary, secondary, tertiary, colorScales, convertToHarmonies harmonyColors,
   lightMode, darkMode, accessibleLight, accessibleDark, generateSimpleMonotoneScale⟩

/-- The 0-255 to 0-1 conversion applied by `generatePaletteFromSelectedColors`
before palette generation (src/code.ts line 160). -/
def convertSelectedColors (selectedColors : SelectedColors) : SelectedColors :=
  ⟨⟨selectedColors.primary.r / 255, selectedColors.primary.g / 255,
    selectedColors.primary.b / 255⟩,
   ⟨selectedColors.secondary.r / 255, selectedColors.secondary.g / 255,
    selectedColors.secondary.b / 255⟩,
   ⟨selectedColors.tertiary.r / 255, selectedColors.tertiary.g / 255,
    selectedColors.tertiary.b / 255⟩⟩

/-- The default settings of `generatePaletteFromSelectedColors`
(src/code.ts line 181); the split-complementary key is the hyphenated string. -/
def defaultSettings : PaletteSettings :=
  ⟨9, true, ["analogous", "complementary", "triadic", "split-complementary"]⟩

/-- `generateAnalogousColors` (src/code.ts line 1993): +30°, +60°, +90°. -/
def generateAnalogousColors (color : RGB) : List RGB :=
  let hsl := rgbToHsl color.r color.g color.b
  [hslToRgb (jsMod (hsl.h + 1 * 30) 360) hsl.s hsl.l,
   hslToRgb (jsMod (hsl.h + 2 * 30) 360) hsl.s hsl.l,
   hslToRgb (jsMod (hsl.h + 3 * 30) 360) hsl.s hsl.l]

/-- `generateComplementaryColors` (src/code.ts line 2008): one color at +180°. -/
def generateComplementaryColors (color : RGB) : List RGB :=
  let hsl := rgbToHsl color.r color.g color.b
  [hslToRgb (jsMod (hsl.h + 180) 360) hsl.s hsl.l]

/-- `generateTriadicColors` (src/code.ts line 2019): two colors at +120°, +240°. -/
def generateTriadicColors (color : RGB) : List RGB :=
  let hsl := rgbToHsl color.r color.g color.b
  [hslToRgb (jsMod (hsl.h + 1 * 120) 360) hsl.s hsl.l,
   hslToRgb (jsMod (hsl.h + 2 * 120) 360) hsl.s hsl.l]

/-- `generateSplitComplementaryColors` (src/code.ts line 2034): +150°, +210°. -/
def generateSplitComplementaryColors (color : RGB) : List RGB :=
  let hsl := rgbToHsl color.r color.g color.b
  [hslToRgb (jsMod (hsl.h + 150) 360) hsl.s hsl.l,
   hslToRgb (jsMod (hsl.h + 210) 360) hsl.s hsl.l]

/-- The per-candidate record built by `selectBestPrimaryCandidates`
(src/code.ts line 220). -/
structure ScoredColor where
  color : RGB
  score : ℚ
  hue : ℚ
deriving DecidableEq

/-- The scoring map of `selectBestPrimaryCandidates` (src/code.ts line 220). -/
def scoreColor (color : RGB) : ScoredColor :=
  let hsl := rgbToHsl color.r color.g color.b
  let vibrancyScore := hsl.s * (1 - |hsl.l - 0.5| * 2)
  let mudPenalty : ℚ := if hsl.s < 0.3 ∧ hsl.l > 0.3 ∧ hsl.l < 0.7 then -0.5 else 0
  let huePreference : ℚ :=
    if (hsl.h ≥ 0 ∧ hsl.h ≤ 60) ∨ (hsl.h ≥ 300 ∧ hsl.h ≤ 360) then 0.1 else 0
  ⟨color, vibrancyScore + mudPenalty + huePreference, hsl.h⟩

/-- Stable insertion into a descending-by-score list. -/
def insertDesc (a : ScoredColor) : List ScoredColor → List ScoredColor
  | [] => [a]
  | x :: xs => if a.score < x.score then x :: insertDesc a xs else a :: x :: xs

/-- Model of the stable JS sort `scoredColors.sort((a, b) => b.score - a.score)`
(src/code.ts line 238): stable descending insertion sort. -/
def sortByScoreDesc (l : List ScoredColor) : List ScoredColor :=
  l.foldr insertDesc []

/-- The greedy diversity-filter loop of `selectBestPrimaryCandidates`
(src/code.ts lines 244-260); the candidate list and used-hue list are the
loop accumulators. -/
def selectGreedy (hueSpacing : ℚ) (count : ℕ) :
    List ScoredColor → List RGB → List ℚ → List RGB × List ℚ
  | [], candidates, usedHueRanges => (candidates, usedHueRanges)
  | scored :: rest, candidates, usedHueRanges =>
    if candidates.length ≥ count then (candidates, usedHueRanges)
    else
      let tooClose := usedHueRanges.any fun usedHue =>
        decide (min (|scored.hue - usedHue|) (360 - |scored.hue - usedHue|) <
          hueSpacing * 0.7)
      if tooClose = false ∨ candidates.length < 2 then
        selectGreedy hueSpacing count rest (candidates ++ [scored.color])
          (usedHueRanges ++ [scored.hue])
      else
        selectGreedy hueSpacing count rest candidates usedHueRanges

/-- The backfill while-loop of `selectBestPrimaryCandidates` (src/code.ts
lines 263-270), fuelled: the loop adds one candidate per iteration and stops
once `count` is reached, so `count` steps of fuel are enough.  The JS
`includes` on color objects is modelled by structural equality on `RGB`. -/
def backfillStep (scoredColors : List ScoredColor) (count : ℕ) :
    ℕ → List RGB → List RGB
  | 0, candidates => candidates
  | fuel + 1, candidates =>
    if candidates.length < count ∧ candidates.length < scoredColors.length then
      match scoredColors.filter (fun s => !(candidates.contains s.color)) with
      | [] => candidates
      | s :: _ => backfillStep scoredColors count fuel (candidates ++ [s.color])
    else candidates

/-- `selectBestPrimaryCandidates` (src/code.ts line 218). -/
def selectBestPrimaryCandidates (colors : List RGB) (count : ℕ) : List RGB :=
  let scoredColors := sortByScoreDesc (colors.map scoreColor)
  let hueSpacing := (360 : ℚ) / (count : ℚ)
  let greedy := selectGreedy hueSpacing count scoredColors [] []
  backfillStep scoredColors count count greedy.1

end Palette

namespace Palette

/-! ### Basic facts about `jsMod` and the conversion helpers -/

theorem jsMod_eval (a n : ℚ) (k : ℤ) (hk : 0 ≤ k) (hn : 0 < n)
    (h1 : (k : ℚ) * n ≤ a) (h2 : a < ((k : ℚ) + 1) * n) : jsMod a n = a - n * k := by
  have ha : 0 ≤ a := le_trans (by positivity) h1
  have hq : 0 ≤ a / n := div_nonneg ha hn.le
  have hfl : ⌊a / n⌋ = k := by
    rw [Int.floor_eq_iff]
    constructor
    · rw [le_div_iff hn]; exact h1
    · rw [div_lt_iff hn]; push_cast; exact h2
  unfold jsMod truncQ
  rw [if_pos hq, hfl]

theorem jsMod_mem (a n : ℚ) (ha : 0 ≤ a) (hn : 0 < n) :
    0 ≤ jsMod a n ∧ jsMod a n < n := by
  have hq : 0 ≤ a / n := div_nonneg ha hn.le
  unfold jsMod truncQ
  rw [if_pos hq]
  constructor
  · have h1 : (⌊a / n⌋ : ℚ) ≤ a / n := Int.floor_le _
    have := mul_le_mul_of_nonneg_left h1 hn.le
    rw [mul_div_cancel₀ a hn.ne'] at this
    linarith
  · have h2 : a / n < ⌊a / n⌋ + 1 := Int.lt_floor_add_one _
    have := mul_lt_mul_of_pos_left h2 hn
    rw [mul_div_cancel₀ a hn.ne'] at this
    nlinarith

theorem chroma_pos (s l : ℚ) (hs : 0 < s) (hl0 : 0 < l) (hl1 : l < 1) :
    0 < chroma s l := by
  unfold chroma
  have : |2 * l - 1| < 1 := by
    rw [abs_lt]; constructor <;> linarith
  nlinarith

theorem chroma_nonneg (s l : ℚ) (hs : 0 ≤ s) (hl0 : 0 ≤ l) (hl1 : l ≤ 1) :
    0 ≤ chroma s l := by
  unfold chroma
  have : |2 * l - 1| ≤ 1 := by
    rw [abs_le]; constructor <;> linarith
  nlinarith

theorem xval_bounds (h s l : ℚ) (hh : 0 ≤ h) (hc : 0 ≤ chroma s l) :
    0 ≤ xval h s l ∧ xval h s l ≤ chroma s l := by
  have hm := jsMod_mem (h / 60) 2 (by positivity) (by norm_num)
  have habs : |jsMod (h / 60) 2 - 1| ≤ 1 := by
    rw [abs_le]; constructor <;> linarith [hm.1, hm.2]
  have habs0 : 0 ≤ |jsMod (h / 60) 2 - 1| := abs_nonneg _
  unfold xval
  constructor
  · nlinarith
  · nlinarith

theorem chroma_add_two_mval (s l : ℚ) : chroma s l + 2 * mval s l = 2 * l := by
  unfold mval; ring

/-! ### Per-segment evaluation of `hslToRgb` and of its local `x` -/

theorem hslToRgb_seg1 (h s l : ℚ) (h1 : 0 ≤ h) (h2 : h < 60) :
    hslToRgb h s l = ⟨chroma s l + mval s l, xval h s l + mval s l, mval s l⟩ := by
  unfold hslToRgb; rw [if_pos ⟨h1, h2⟩]

theorem hslToRgb_seg2 (h s l : ℚ) (h1 : 60 ≤ h) (h2 : h < 120) :
    hslToRgb h s l = ⟨xval h s l + mval s l, chroma s l + mval s l, mval s l⟩ := by
  unfold hslToRgb
  rw [if_neg (by rintro ⟨-, hlt⟩; linarith), if_pos ⟨h1, h2⟩]

theorem hslToRgb_seg3 (h s l : ℚ) (h1 : 120 ≤ h) (h2 : h < 180) :
    hslToRgb h s l = ⟨mval s l, chroma s l + mval s l, xval h s l + mval s l⟩ := by
  unfold hslToRgb
  rw [if_neg (by rintro ⟨-, hlt⟩; linarith), if_neg (by rintro ⟨-, hlt⟩; linarith),
    if_pos ⟨h1, h2⟩]

theorem hslToRgb_seg4 (h s l : ℚ) (h1 : 180 ≤ h) (h2 : h < 240) :
    hslToRgb h s l = ⟨mval s l, xval h s l + mval s l, chroma s l + mval s l⟩ := by
  unfold hslToRgb
  rw [if_neg (by rintro ⟨-, hlt⟩; linarith), if_neg (by rintro ⟨-, hlt⟩; linarith),
    if_neg (by rintro ⟨-, hlt⟩; linarith), if_pos ⟨h1, h2⟩]

theorem hslToRgb_seg5 (h s l : ℚ) (h1 : 240 ≤ h) (h2 : h < 300) :
    hslToRgb h s l = ⟨xval h s l + mval s l, mval s l, chroma s l + mval s l⟩ := by
  unfold hslToRgb
  rw [if_neg (by rintro ⟨-, hlt⟩; linarith), if_neg (by rintro ⟨-, hlt⟩; linarith),
    if_neg (by rintro ⟨-, hlt⟩; linarith), if_neg (by rintro ⟨-, hlt⟩; linarith),
    if_pos ⟨h1, h2⟩]

theorem hslToRgb_seg6 (h s l : ℚ) (h1 : 300 ≤ h) :
    hslToRgb h s l = ⟨chroma s l + mval s l, mval s l, xval h s l + mval s l⟩ := by
  unfold hslToRgb
  rw [if_neg (by rintro ⟨-, hlt⟩; linarith), if_neg (by rintro ⟨-, hlt⟩; linarith),
    if_neg (by rintro ⟨-, hlt⟩; linarith), if_neg (by rintro ⟨-, hlt⟩; linarith),
    if_neg (by rintro ⟨-, hlt⟩; linarith)]

theorem xval_seg1 (h s l : ℚ) (h1 : 0 ≤ h) (h2 : h ≤ 60) :
    xval h s l = chroma s l * (h / 60) := by
  have hb1 : 0 ≤ h / 60 := by positivity
  have hb2 : h / 60 ≤ 1 := by rw [div_le_one (by norm_num : (0:ℚ) < 60)]; linarith
  unfold xval
  rw [jsMod_eval (h / 60) 2 0 le_rfl (by norm_num) (by push_cast; linarith)
    (by push_cast; linarith)]
  rw [abs_of_nonpos (by push_cast; linarith)]
  push_cast; ring

theorem xval_seg2 (h s l : ℚ) (h1 : 60 ≤ h) (h2 : h < 120) :
    xval h s l = chroma s l * (2 - h / 60) := by
  have hb1 : 1 ≤ h / 60 := by rw [le_div_iff₀ (by norm_num : (0:ℚ) < 60)]; linarith
  have hb2 : h / 60 < 2 := by rw [div_lt_iff₀ (by norm_num : (0:ℚ) < 60)]; linarith
  unfold xval
  rw [jsMod_eval (h / 60) 2 0 le_rfl (by norm_num) (by push_cast; linarith)
    (by push_cast; linarith)]
  rw [abs_of_nonneg (by push_cast; linarith)]
  push_cast; ring

theorem xval_seg3 (h s l : ℚ) (h1 : 120 ≤ h) (h2 : h ≤ 180) :
    xval h s l = chroma s l * (h / 60 - 2) := by
  have hb1 : 2 ≤ h / 60 := by rw [le_div_iff₀ (by norm_num : (0:ℚ) < 60)]; linarith
  have hb2 : h / 60 ≤ 3 := by rw [div_le_iff₀ (by norm_num : (0:ℚ) < 60)]; linarith
  unfold xval
  rw [jsMod_eval (h / 60) 2 1 (by norm_num) (by norm_num) (by push_cast; linarith)
    (by push_cast; linarith)]
  rw [abs_of_nonpos (by push_cast; linarith)]
  push_cast; ring

theorem xval_seg4 (h s l : ℚ) (h1 : 180 ≤ h) (h2 : h < 240) :
    xval h s l = chroma s l * (4 - h / 60) := by
  have hb1 : 3 ≤ h / 60 := by rw [le_div_iff₀ (by norm_num : (0:ℚ) < 60)]; linarith
  have hb2 : h / 60 < 4 := by rw [div_lt_iff₀ (by norm_num : (0:ℚ) < 60)]; linarith
  unfold xval
  rw [jsMod_eval (h / 60) 2 1 (by norm_num) (by norm_num) (by push_cast; linarith)
    (by push_cast; linarith)]
  rw [abs_of_nonneg (by push_cast; linarith)]
  push_cast; ring

theorem xval_seg5 (h s l : ℚ) (h1 : 240 ≤ h) (h2 : h ≤ 300) :
    xval h s l = chroma s l * (h / 60 - 4) := by
  have hb1 : 4 ≤ h / 60 := by rw [le_div_iff₀ (by norm_num : (0:ℚ) < 60)]; linarith
  have hb2 : h / 60 ≤ 5 := by rw [div_le_iff₀ (by norm_num : (0:ℚ) < 60)]; linarith
  unfold xval
  rw [jsMod_eval (h / 60) 2 2 (by norm_num) (by norm_num) (by push_cast; linarith)
    (by push_cast; linarith)]
  rw [abs_of_nonpos (by push_cast; linarith)]
  push_cast; ring

theorem xval_seg6 (h s l : ℚ) (h1 : 300 ≤ h) (h2 : h < 360) :
    xval h s l = chroma s l * (6 - h / 60) := by
  have hb1 : 5 ≤ h / 60 := by rw [le_div_iff₀ (by norm_num : (0:ℚ) < 60)]; linarith
  have hb2 : h / 60 < 6 := by rw [div_lt_iff₀ (by norm_num : (0:ℚ) < 60)]; linarith
  unfold xval
  rw [jsMod_eval (h / 60) 2 2 (by norm_num) (by norm_num) (by push_cast; linarith)
    (by push_cast; linarith)]
  rw [abs_of_nonneg (by push_cast; linarith)]
  push_cast; ring

/-! ### Computing `rgbToHsl` on each output pattern of `hslToRgb`

Each pattern is a permutation of `(c + m, c * t + m, m)` with `t ∈ [0, 1]`;
the max channel is always `c + m` and the min channel `m`, so saturation and
lightness are recovered exactly, and the hue comes out of the matching branch
of the hue switch. -/

theorem rgbToHsl_shape1 (s l t : ℚ) (hs : 0 < s) (hl0 : 0 < l) (hl1 : l < 1)
    (ht0 : 0 ≤ t) (ht1 : t ≤ 1) :
    rgbToHsl (chroma s l + mval s l) (chroma s l * t + mval s l) (mval s l) =
      ⟨t * 60, s, l⟩ := by
  have hc : 0 < chroma s l := chroma_pos s l hs hl0 hl1
  set c := chroma s l with hc_def
  set m := mval s l with hm_def
  have h2m : c + 2 * m = 2 * l := chroma_add_two_mval s l
  have hcs : c = (1 - |2 * l - 1|) * s := by rw [hc_def]; rfl
  have hx0 : 0 ≤ c * t := mul_nonneg hc.le ht0
  have hxc : c * t ≤ c := by nlinarith
  simp only [rgbToHsl]
  rw [max_eq_left (show m ≤ c * t + m by linarith),
      max_eq_left (show c * t + m ≤ c + m by linarith),
      min_eq_right (show m ≤ c * t + m by linarith),
      min_eq_right (show m ≤ c + m by linarith)]
  rw [if_neg (show ¬(c + m = m) by intro hE; linarith)]
  rw [if_pos rfl, if_neg (show ¬(c * t + m < m) by intro hE; linarith)]
  simp only [HSL.mk.injEq]
  refine ⟨?_, ?_, by linarith⟩
  · rw [show c * t + m - m = c * t by ring, show c + m - m = c by ring]
    field_simp
    ring
  · split_ifs with hgt
    · have habs : |2 * l - 1| = 2 * l - 1 := abs_of_nonneg (by linarith)
      rw [habs] at hcs
      rw [show c + m - m = c by ring,
        div_eq_iff (show (2:ℚ) - (c + m) - m ≠ 0 by intro hE; linarith)]
      linear_combination hcs + s * h2m
    · have habs : |2 * l - 1| = -(2 * l - 1) := abs_of_nonpos (by linarith)
      rw [habs] at hcs
      rw [show c + m - m = c by ring,
        div_eq_iff (show (c + m) + m ≠ 0 by intro hE; linarith)]
      linear_combination hcs - s * h2m

theorem sat_recover (s l c m : ℚ) (h2m : c + 2 * m = 2 * l)
    (hcs : c = (1 - |2 * l - 1|) * s) (hl0 : 0 < l) (hl1 : l < 1) :
    (if (c + m + m) / 2 > 1 / 2 then (c + m - m) / (2 - (c + m) - m)
     else (c + m - m) / (c + m + m)) = s := by
  split_ifs with hgt
  · have habs : |2 * l - 1| = 2 * l - 1 := abs_of_nonneg (by linarith)
    rw [habs] at hcs
    rw [show c + m - m = c by ring,
      div_eq_iff (show (2:ℚ) - (c + m) - m ≠ 0 by intro hE; linarith)]
    linear_combination hcs + s * h2m
  · have habs : |2 * l - 1| = -(2 * l - 1) := abs_of_nonpos (by linarith)
    rw [habs] at hcs
    rw [show c + m - m = c by ring,
      div_eq_iff (show c + m + m ≠ 0 by intro hE; linarith)]
    linear_combination hcs - s * h2m

theorem rgbToHsl_shape2 (s l t : ℚ) (hs : 0 < s) (hl0 : 0 < l) (hl1 : l < 1)
    (ht0 : 0 ≤ t) (ht1 : t ≤ 1) :
    rgbToHsl (chroma s l * t + mval s l) (chroma s l + mval s l) (mval s l) =
      ⟨(2 - t) * 60, s, l⟩ := by
  have hc : 0 < chroma s l := chroma_pos s l hs hl0 hl1
  set c := chroma s l with hc_def
  set m := mval s l with hm_def
  have h2m : c + 2 * m = 2 * l := chroma_add_two_mval s l
  have hcs : c = (1 - |2 * l - 1|) * s := by rw [hc_def]; rfl
  have hx0 : 0 ≤ c * t := mul_nonneg hc.le ht0
  have hxc : c * t ≤ c := by nlinarith
  simp only [rgbToHsl]
  rw [max_eq_left (show m ≤ c + m by linarith),
      max_eq_right (show c * t + m ≤ c + m by linarith),
      min_eq_right (show m ≤ c + m by linarith),
      min_eq_right (show m ≤ c * t + m by linarith)]
  rw [if_neg (show ¬(c + m = m) by intro hE; linarith)]
  simp only [HSL.mk.injEq]
  refine ⟨?_, sat_recover s l c m h2m hcs hl0 hl1, by linarith⟩
  by_cases hrt : c + m = c * t + m
  · have ht1' : t = 1 := by
      have hE : c * (1 - t) = 0 := by linarith
      rcases mul_eq_zero.mp hE with h | h
      · exact absurd h hc.ne'
      · linarith
    rw [if_pos hrt, if_neg (show ¬(c + m < m) by intro hE; linarith)]
    rw [show c + m - m = c by ring, div_self hc.ne', ht1']
    norm_num
  · rw [if_neg hrt, if_pos trivial]
    rw [show m - (c * t + m) = -(c * t) by ring, show c + m - m = c by ring]
    field_simp
    ring

theorem rgbToHsl_shape3 (s l t : ℚ) (hs : 0 < s) (hl0 : 0 < l) (hl1 : l < 1)
    (ht0 : 0 ≤ t) (ht1 : t ≤ 1) :
    rgbToHsl (mval s l) (chroma s l + mval s l) (chroma s l * t + mval s l) =
      ⟨(2 + t) * 60, s, l⟩ := by
  have hc : 0 < chroma s l := chroma_pos s l hs hl0 hl1
  set c := chroma s l with hc_def
  set m := mval s l with hm_def
  have h2m : c + 2 * m = 2 * l := chroma_add_two_mval s l
  have hcs : c = (1 - |2 * l - 1|) * s := by rw [hc_def]; rfl
  have hx0 : 0 ≤ c * t := mul_nonneg hc.le ht0
  have hxc : c * t ≤ c := by nlinarith
  simp only [rgbToHsl]
  rw [max_eq_left (show c * t + m ≤ c + m by linarith),
      max_eq_right (show m ≤ c + m by linarith),
      min_eq_right (show c * t + m ≤ c + m by linarith),
      min_eq_left (show m ≤ c * t + m by linarith)]
  rw [if_neg (show ¬(c + m = m) by intro hE; linarith)]
  simp only [HSL.mk.injEq]
  refine ⟨?_, sat_recover s l c m h2m hcs hl0 hl1, by linarith⟩
  rw [if_neg (show ¬(c + m = m) by intro hE; linarith), if_pos trivial]
  rw [show c * t + m - m = c * t by ring, show c + m - m = c by ring]
  field_simp
  ring

theorem rgbToHsl_shape4 (s l t : ℚ) (hs : 0 < s) (hl0 : 0 < l) (hl1 : l < 1)
    (ht0 : 0 ≤ t) (ht1 : t ≤ 1) :
    rgbToHsl (mval s l) (chroma s l * t + mval s l) (chroma s l + mval s l) =
      ⟨(4 - t) * 60, s, l⟩ := by
  have hc : 0 < chroma s l := chroma_pos s l hs hl0 hl1
  set c := chroma s l with hc_def
  set m := mval s l with hm_def
  have h2m : c + 2 * m = 2 * l := chroma_add_two_mval s l
  have hcs : c = (1 - |2 * l - 1|) * s := by rw [hc_def]; rfl
  have hx0 : 0 ≤ c * t := mul_nonneg hc.le ht0
  have hxc : c * t ≤ c := by nlinarith
  simp only [rgbToHsl]
  rw [max_eq_right (show c * t + m ≤ c + m by linarith),
      max_eq_right (show m ≤ c + m by linarith),
      min_eq_left (show c * t + m ≤ c + m by linarith),
      min_eq_left (show m ≤ c * t + m by linarith)]
  rw [if_neg (show ¬(c + m = m) by intro hE; linarith)]
  simp only [HSL.mk.injEq]
  refine ⟨?_, sat_recover s l c m h2m hcs hl0 hl1, by linarith⟩
  rw [if_neg (show ¬(c + m = m) by intro hE; linarith)]
  by_cases hrt : c + m = c * t + m
  · have ht1' : t = 1 := by
      have hE : c * (1 - t) = 0 := by linarith
      rcases mul_eq_zero.mp hE with h | h
      · exact absurd h hc.ne'
      · linarith
    rw [if_pos hrt]
    rw [show c + m - m = c by ring, div_self hc.ne', ht1']
    norm_num
  · rw [if_neg hrt]
    rw [show m - (c * t + m) = -(c * t) by ring, show c + m - m = c by ring]
    field_simp
    ring

theorem rgbToHsl_shape5 (s l t : ℚ) (hs : 0 < s) (hl0 : 0 < l) (hl1 : l < 1)
    (ht0 : 0 ≤ t) (ht1 : t ≤ 1) :
    rgbToHsl (chroma s l * t + mval s l) (mval s l) (chroma s l + mval s l) =
      ⟨(4 + t) * 60, s, l⟩ := by
  have hc : 0 < chroma s l := chroma_pos s l hs hl0 hl1
  set c := chroma s l with hc_def
  set m := mval s l with hm_def
  have h2m : c + 2 * m = 2 * l := chroma_add_two_mval s l
  have hcs : c = (1 - |2 * l - 1|) * s := by rw [hc_def]; rfl
  have hx0 : 0 ≤ c * t := mul_nonneg hc.le ht0
  have hxc : c * t ≤ c := by nlinarith
  simp only [rgbToHsl]
  rw [max_eq_right (show m ≤ c + m by linarith),
      max_eq_right (show c * t + m ≤ c + m by linarith),
      min_eq_left (show m ≤ c + m by linarith),
      min_eq_right (show m ≤ c * t + m by linarith)]
  rw [if_neg (show ¬(c + m = m) by intro hE; linarith)]
  simp only [HSL.mk.injEq]
  refine ⟨?_, sat_recover s l c m h2m hcs hl0 hl1, by linarith⟩
  by_cases hrt : c + m = c * t + m
  · have ht1' : t = 1 := by
      have hE : c * (1 - t) = 0 := by linarith
      rcases mul_eq_zero.mp hE with h | h
      · exact absurd h hc.ne'
      · linarith
    rw [if_pos hrt, if_pos (show m < c + m by linarith)]
    rw [show m - (c + m) = -c by ring, show c + m - m = c by ring, neg_div, div_self hc.ne', ht1']
    norm_num
  · rw [if_neg hrt, if_neg (show ¬(c + m = m) by intro hE; linarith)]
    rw [show c * t + m - m = c * t by ring, show c + m - m = c by ring]
    field_simp
    ring

theorem rgbToHsl_shape6 (s l t : ℚ) (hs : 0 < s) (hl0 : 0 < l) (hl1 : l < 1)
    (ht0 : 0 < t) (ht1 : t ≤ 1) :
    rgbToHsl (chroma s l + mval s l) (mval s l) (chroma s l * t + mval s l) =
      ⟨(6 - t) * 60, s, l⟩ := by
  have hc : 0 < chroma s l := chroma_pos s l hs hl0 hl1
  set c := chroma s l with hc_def
  set m := mval s l with hm_def
  have h2m : c + 2 * m = 2 * l := chroma_add_two_mval s l
  have hcs : c = (1 - |2 * l - 1|) * s := by rw [hc_def]; rfl
  have hx0 : 0 < c * t := mul_pos hc ht0
  have hxc : c * t ≤ c := by nlinarith
  simp only [rgbToHsl]
  rw [max_eq_right (show m ≤ c * t + m by linarith),
      max_eq_left (show c * t + m ≤ c + m by linarith),
      min_eq_left (show m ≤ c * t + m by linarith),
      min_eq_right (show m ≤ c + m by linarith)]
  rw [if_neg (show ¬(c + m = m) by intro hE; linarith)]
  simp only [HSL.mk.injEq]
  refine ⟨?_, sat_recover s l c m h2m hcs hl0 hl1, by linarith⟩
  rw [if_pos trivial, if_pos (show m < c * t + m by linarith)]
  rw [show m - (c * t + m) = -(c * t) by ring, show c + m - m = c by ring]
  field_simp
  ring

/-- Exact round trip HSL → RGB → HSL: for an in-range hue and a chromatic,
non-extreme saturation/lightness pair, `rgbToHsl` recovers exactly the HSL
triple that `hslToRgb` was fed. -/
theorem hsl_rgb_hsl (h s l : ℚ) (hh0 : 0 ≤ h) (hh1 : h < 360)
    (hs : 0 < s) (hl0 : 0 < l) (hl1 : l < 1) :
    rgbToHsl (hslToRgb h s l).r (hslToRgb h s l).g (hslToRgb h s l).b = ⟨h, s, l⟩ := by
  have h60 : (0:ℚ) < 60 := by norm_num
  by_cases hA : h < 60
  · have hq1 : 0 ≤ h / 60 := by positivity
    have hq2 : h / 60 ≤ 1 := by rw [div_le_one h60]; linarith
    rw [hslToRgb_seg1 h s l hh0 hA]
    dsimp only
    rw [xval_seg1 h s l hh0 hA.le]
    rw [rgbToHsl_shape1 s l (h / 60) hs hl0 hl1 (by linarith) (by linarith)]
    congr 1
    ring
  · by_cases hB : h < 120
    · have hq1 : 1 ≤ h / 60 := by rw [le_div_iff₀ h60]; linarith [not_lt.mp hA]
      have hq2 : h / 60 < 2 := by rw [div_lt_iff₀ h60]; linarith
      rw [hslToRgb_seg2 h s l (not_lt.mp hA) hB]
      dsimp only
      rw [xval_seg2 h s l (not_lt.mp hA) hB]
      rw [rgbToHsl_shape2 s l (2 - h / 60) hs hl0 hl1 (by linarith) (by linarith)]
      congr 1
      ring
    · by_cases hC : h < 180
      · have hq1 : 2 ≤ h / 60 := by rw [le_div_iff₀ h60]; linarith [not_lt.mp hB]
        have hq2 : h / 60 < 3 := by rw [div_lt_iff₀ h60]; linarith
        rw [hslToRgb_seg3 h s l (not_lt.mp hB) hC]
        dsimp only
        rw [xval_seg3 h s l (not_lt.mp hB) hC.le]
        rw [rgbToHsl_shape3 s l (h / 60 - 2) hs hl0 hl1 (by linarith) (by linarith)]
        congr 1
        ring
      · by_cases hD : h < 240
        · have hq1 : 3 ≤ h / 60 := by rw [le_div_iff₀ h60]; linarith [not_lt.mp hC]
          have hq2 : h / 60 < 4 := by rw [div_lt_iff₀ h60]; linarith
          rw [hslToRgb_seg4 h s l (not_lt.mp hC) hD]
          dsimp only
          rw [xval_seg4 h s l (not_lt.mp hC) hD]
          rw [rgbToHsl_shape4 s l (4 - h / 60) hs hl0 hl1 (by linarith) (by linarith)]
          congr 1
          ring
        · by_cases hE : h < 300
          · have hq1 : 4 ≤ h / 60 := by rw [le_div_iff₀ h60]; linarith [not_lt.mp hD]
            have hq2 : h / 60 < 5 := by rw [div_lt_iff₀ h60]; linarith
            rw [hslToRgb_seg5 h s l (not_lt.mp hD) hE]
            dsimp only
            rw [xval_seg5 h s l (not_lt.mp hD) hE.le]
            rw [rgbToHsl_shape5 s l (h / 60 - 4) hs hl0 hl1 (by linarith) (by linarith)]
            congr 1
            ring
          · have hq1 : 5 ≤ h / 60 := by rw [le_div_iff₀ h60]; linarith [not_lt.mp hE]
            have hq2 : h / 60 < 6 := by rw [div_lt_iff₀ h60]; linarith
            rw [hslToRgb_seg6 h s l (not_lt.mp hE)]
            dsimp only
            rw [xval_seg6 h s l (not_lt.mp hE) hh1]
            rw [rgbToHsl_shape6 s l (6 - h / 60) hs hl0 hl1 (by linarith) (by linarith)]
            congr 1
            ring

theorem chroma_recover (mx mn : ℚ) (h0 : 0 ≤ mn) (h1 : mn < mx) (h2 : mx ≤ 1) :
    chroma (if (mx + mn) / 2 > 1 / 2 then (mx - mn) / (2 - mx - mn)
            else (mx - mn) / (mx + mn)) ((mx + mn) / 2) = mx - mn := by
  unfold chroma
  split_ifs with hgt
  · rw [abs_of_nonneg (by linarith)]
    have hne : 2 - mx - mn ≠ 0 := by intro hE; linarith
    field_simp
    ring
  · rw [abs_of_nonpos (by linarith)]
    have hne : mx + mn ≠ 0 := by intro hE; linarith
    field_simp

theorem mval_recover (mx mn : ℚ) (h0 : 0 ≤ mn) (h1 : mn < mx) (h2 : mx ≤ 1) :
    mval (if (mx + mn) / 2 > 1 / 2 then (mx - mn) / (2 - mx - mn)
          else (mx - mn) / (mx + mn)) ((mx + mn) / 2) = mn := by
  unfold mval
  rw [chroma_recover mx mn h0 h1 h2]
  ring

/-- Exact round trip RGB → HSL → RGB: `hslToRgb` applied to the output of
`rgbToHsl` reproduces the channels exactly (rational arithmetic). -/
theorem rgb_hsl_rgb (r g b : ℚ) (hr0 : 0 ≤ r) (hr1 : r ≤ 1) (hg0 : 0 ≤ g) (hg1 : g ≤ 1)
    (hb0 : 0 ≤ b) (hb1 : b ≤ 1) :
    hslToRgb (rgbToHsl r g b).h (rgbToHsl r g b).s (rgbToHsl r g b).l = ⟨r, g, b⟩ := by
  have hrx : r ≤ max r (max g b) := le_max_left _ _
  have hgx : g ≤ max r (max g b) := le_trans (le_max_left _ _) (le_max_right _ _)
  have hbx : b ≤ max r (max g b) := le_trans (le_max_right _ _) (le_max_right _ _)
  have hmr : min r (min g b) ≤ r := min_le_left _ _
  have hmg : min r (min g b) ≤ g := le_trans (min_le_right _ _) (min_le_left _ _)
  have hmb : min r (min g b) ≤ b := le_trans (min_le_right _ _) (min_le_right _ _)
  have hmx1 : max r (max g b) ≤ 1 := max_le hr1 (max_le hg1 hb1)
  have hmn0 : 0 ≤ min r (min g b) := le_min hr0 (le_min hg0 hb0)
  by_cases hch : max r (max g b) = min r (min g b)
  · have hre : r = min r (min g b) := le_antisymm (hch ▸ hrx) hmr
    have hge : g = min r (min g b) := le_antisymm (hch ▸ hgx) hmg
    have hbe : b = min r (min g b) := le_antisymm (hch ▸ hbx) hmb
    have hH : rgbToHsl r g b = ⟨0, 0, (max r (max g b) + min r (min g b)) / 2⟩ := by
      simp only [rgbToHsl]
      rw [if_pos hch]
    rw [hH]
    dsimp only
    rw [hslToRgb_seg1 _ _ _ le_rfl (by norm_num)]
    have hc0 : chroma 0 ((max r (max g b) + min r (min g b)) / 2) = 0 := by
      unfold chroma; ring
    have hx0 : xval 0 0 ((max r (max g b) + min r (min g b)) / 2) = 0 := by
      unfold xval; rw [hc0, zero_mul]
    have hm0 : mval 0 ((max r (max g b) + min r (min g b)) / 2) =
        (max r (max g b) + min r (min g b)) / 2 := by
      unfold mval; rw [hc0]; ring
    rw [hc0, hx0, hm0]
    simp only [RGB.mk.injEq]
    refine ⟨by rw [hch]; linarith, by rw [hch]; linarith, by rw [hch]; linarith⟩
  · have hmnx : min r (min g b) < max r (max g b) :=
      lt_of_le_of_ne (le_trans hmr hrx) fun hE => hch hE.symm
    have hH : rgbToHsl r g b =
        ⟨(if max r (max g b) = r then
            (g - b) / (max r (max g b) - min r (min g b)) + (if g < b then 6 else 0)
          else if max r (max g b) = g then
            (b - r) / (max r (max g b) - min r (min g b)) + 2
          else (r - g) / (max r (max g b) - min r (min g b)) + 4) / 6 * 360,
         if (max r (max g b) + min r (min g b)) / 2 > 1 / 2 then
           (max r (max g b) - min r (min g b)) /
             (2 - max r (max g b) - min r (min g b))
         else (max r (max g b) - min r (min g b)) /
             (max r (max g b) + min r (min g b)),
         (max r (max g b) + min r (min g b)) / 2⟩ := by
      simp only [rgbToHsl]
      rw [if_neg hch]
    by_cases hxr : max r (max g b) = r
    · by_cases hgb : g < b
      · -- max channel r, g < b: hue lands in segment 6
        have hmn : min r (min g b) = g := by
          rw [min_eq_left hgb.le, min_eq_right (hxr ▸ hgx)]
        rw [hxr, hmn] at hH hmnx
        rw [if_pos rfl, if_pos hgb] at hH
        have hrg : (0:ℚ) < r - g := sub_pos.mpr hmnx
        have hbr : b ≤ r := hxr ▸ hbx
        have hq1 : -1 ≤ (g - b) / (r - g) := by
          rw [le_div_iff₀ hrg]; linarith
        have hq2 : (g - b) / (r - g) < 0 := div_neg_of_neg_of_pos (by linarith) hrg
        have hB0 : (300:ℚ) ≤ ((g - b) / (r - g) + 6) / 6 * 360 := by linarith
        have hB1 : ((g - b) / (r - g) + 6) / 6 * 360 < 360 := by linarith
        rw [hH]
        dsimp only
        rw [hslToRgb_seg6 _ _ _ hB0]
        rw [xval_seg6 _ _ _ hB0 hB1]
        rw [chroma_recover r g hg0 hmnx hr1, mval_recover r g hg0 hmnx hr1]
        simp only [RGB.mk.injEq]
        refine ⟨by ring, trivial, ?_⟩
        field_simp
        ring
      · have hgb' : b ≤ g := not_lt.mp hgb
        have hmn : min r (min g b) = b := by
          rw [min_eq_right hgb', min_eq_right (hxr ▸ hbx)]
        rw [hxr, hmn] at hH hmnx
        rw [if_pos rfl, if_neg hgb] at hH
        have hrb : (0:ℚ) < r - b := sub_pos.mpr hmnx
        by_cases hgr : g < r
        · -- max channel r, b ≤ g < r: segment 1
          have hq1 : 0 ≤ (g - b) / (r - b) := div_nonneg (by linarith) hrb.le
          have hq2 : (g - b) / (r - b) < 1 := by rw [div_lt_one hrb]; linarith
          have hB0 : (0:ℚ) ≤ ((g - b) / (r - b) + 0) / 6 * 360 := by linarith
          have hB1 : ((g - b) / (r - b) + 0) / 6 * 360 < 60 := by linarith
          rw [hH]
          dsimp only
          rw [hslToRgb_seg1 _ _ _ hB0 hB1]
          rw [xval_seg1 _ _ _ hB0 hB1.le]
          rw [chroma_recover r b hb0 hmnx hr1, mval_recover r b hb0 hmnx hr1]
          simp only [RGB.mk.injEq]
          refine ⟨by ring, ?_, trivial⟩
          field_simp
          ring
        · -- max channel r with g = r: hue is exactly 60, segment 2
          have hge : g = r := le_antisymm (hxr ▸ hgx) (not_lt.mp hgr)
          have hHeq : ((g - b) / (r - b) + 0) / 6 * 360 = 60 := by
            rw [hge, div_self hrb.ne']
            norm_num
          rw [hHeq] at hH
          rw [hH]
          dsimp only
          rw [hslToRgb_seg2 _ _ _ le_rfl (by norm_num)]
          rw [xval_seg2 _ _ _ le_rfl (by norm_num)]
          rw [chroma_recover r b hb0 hmnx hr1, mval_recover r b hb0 hmnx hr1]
          simp only [RGB.mk.injEq]
          refine ⟨by norm_num, by linarith, trivial⟩
    · by_cases hxg : max r (max g b) = g
      · have hrg : r < g := lt_of_le_of_ne (hxg ▸ hrx) fun hE => hxr (hxg.trans hE.symm)
        by_cases hbr : b < r
        · -- max channel g, b < r: segment 2
          have hmn : min r (min g b) = b := by
            rw [min_eq_right (by linarith : b ≤ g), min_eq_right hbr.le]
          rw [hxg, hmn] at hH hmnx
          rw [if_neg hrg.ne', if_pos rfl] at hH
          have hgb2 : (0:ℚ) < g - b := sub_pos.mpr hmnx
          have hq1 : -1 < (b - r) / (g - b) := by
            rw [lt_div_iff₀ hgb2]; linarith
          have hq2 : (b - r) / (g - b) < 0 := div_neg_of_neg_of_pos (by linarith) hgb2
          have hB0 : (60:ℚ) ≤ ((b - r) / (g - b) + 2) / 6 * 360 := by linarith
          have hB1 : ((b - r) / (g - b) + 2) / 6 * 360 < 120 := by linarith
          rw [hH]
          dsimp only
          rw [hslToRgb_seg2 _ _ _ hB0 hB1]
          rw [xval_seg2 _ _ _ hB0 hB1]
          rw [chroma_recover g b hb0 hmnx hg1, mval_recover g b hb0 hmnx hg1]
          simp only [RGB.mk.injEq]
          refine ⟨?_, by ring, trivial⟩
          field_simp
          ring
        · have hrb' : r ≤ b := not_lt.mp hbr
          have hmn : min r (min g b) = r := min_eq_left (le_min hrg.le hrb')
          rw [hxg, hmn] at hH hmnx
          rw [if_neg hrg.ne', if_pos rfl] at hH
          have hgr2 : (0:ℚ) < g - r := sub_pos.mpr hmnx
          have hbg' : b ≤ g := hxg ▸ hbx
          by_cases hbg : b < g
          · -- max channel g, r ≤ b < g: segment 3
            have hq1 : 0 ≤ (b - r) / (g - r) := div_nonneg (by linarith) hgr2.le
            have hq2 : (b - r) / (g - r) < 1 := by rw [div_lt_one hgr2]; linarith
            have hB0 : (120:ℚ) ≤ ((b - r) / (g - r) + 2) / 6 * 360 := by linarith
            have hB1 : ((b - r) / (g - r) + 2) / 6 * 360 < 180 := by linarith
            rw [hH]
            dsimp only
            rw [hslToRgb_seg3 _ _ _ hB0 hB1]
            rw [xval_seg3 _ _ _ hB0 hB1.le]
            rw [chroma_recover g r hr0 hmnx hg1, mval_recover g r hr0 hmnx hg1]
            simp only [RGB.mk.injEq]
            refine ⟨trivial, by ring, ?_⟩
            field_simp
            ring
          · -- max channel g with b = g: hue is exactly 180, segment 4
            have hbe : b = g := le_antisymm hbg' (not_lt.mp hbg)
            have hHeq : ((b - r) / (g - r) + 2) / 6 * 360 = 180 := by
              rw [hbe, div_self hgr2.ne']
              norm_num
            rw [hHeq] at hH
            rw [hH]
            dsimp only
            rw [hslToRgb_seg4 _ _ _ le_rfl (by norm_num)]
            rw [xval_seg4 _ _ _ le_rfl (by norm_num)]
            rw [chroma_recover g r hr0 hmnx hg1, mval_recover g r hr0 hmnx hg1]
            simp only [RGB.mk.injEq]
            refine ⟨trivial, by norm_num, by linarith⟩
      · have hxb : max r (max g b) = b := by
          rcases max_choice r (max g b) with hc | hc
          · exact absurd hc hxr
          · rcases max_choice g b with hc2 | hc2
            · exact absurd (hc.trans hc2) hxg
            · exact hc.trans hc2
        have hrb2 : r < b := lt_of_le_of_ne (hxb ▸ hrx) fun hE => hxr (hxb.trans hE.symm)
        have hgb2 : g < b := lt_of_le_of_ne (hxb ▸ hgx) fun hE => hxg (hxb.trans hE.symm)
        by_cases hgr : g ≤ r
        · -- max channel b, g ≤ r: segment 5
          have hmn : min r (min g b) = g := by
            rw [min_eq_left hgb2.le, min_eq_right hgr]
          rw [hxb, hmn] at hH hmnx
          rw [if_neg hrb2.ne', if_neg hgb2.ne'] at hH
          have hbg3 : (0:ℚ) < b - g := sub_pos.mpr hmnx
          have hq1 : 0 ≤ (r - g) / (b - g) := div_nonneg (by linarith) hbg3.le
          have hq2 : (r - g) / (b - g) < 1 := by rw [div_lt_one hbg3]; linarith
          have hB0 : (240:ℚ) ≤ ((r - g) / (b - g) + 4) / 6 * 360 := by linarith
          have hB1 : ((r - g) / (b - g) + 4) / 6 * 360 < 300 := by linarith
          rw [hH]
          dsimp only
          rw [hslToRgb_seg5 _ _ _ hB0 hB1]
          rw [xval_seg5 _ _ _ hB0 hB1.le]
          rw [chroma_recover b g hg0 hmnx hb1, mval_recover b g hg0 hmnx hb1]
          simp only [RGB.mk.injEq]
          refine ⟨?_, trivial, by ring⟩
          field_simp
          ring
        · -- max channel b, r < g: segment 4
          have hrg2 : r < g := not_le.mp hgr
          have hmn : min r (min g b) = r := min_eq_left (le_min hrg2.le hrb2.le)
          rw [hxb, hmn] at hH hmnx
          rw [if_neg hrb2.ne', if_neg hgb2.ne'] at hH
          have hbr3 : (0:ℚ) < b - r := sub_pos.mpr hmnx
          have hq1 : -1 < (r - g) / (b - r) := by
            rw [lt_div_iff₀ hbr3]; linarith
          have hq2 : (r - g) / (b - r) < 0 := div_neg_of_neg_of_pos (by linarith) hbr3
          have hB0 : (180:ℚ) ≤ ((r - g) / (b - r) + 4) / 6 * 360 := by linarith
          have hB1 : ((r - g) / (b - r) + 4) / 6 * 360 < 240 := by linarith
          rw [hH]
          dsimp only
          rw [hslToRgb_seg4 _ _ _ hB0 hB1]
          rw [xval_seg4 _ _ _ hB0 hB1]
          rw [chroma_recover b r hr0 hmnx hb1, mval_recover b r hr0 hmnx hb1]
          simp only [RGB.mk.injEq]
          refine ⟨trivial, ?_, by ring⟩
          field_simp
          ring

/-- The hue produced by `rgbToHsl` always lies in `[0, 360)`. -/
theorem rgbToHsl_h_range (r g b : ℚ) :
    0 ≤ (rgbToHsl r g b).h ∧ (rgbToHsl r g b).h < 360 := by
  have hrx : r ≤ max r (max g b) := le_max_left _ _
  have hgx : g ≤ max r (max g b) := le_trans (le_max_left _ _) (le_max_right _ _)
  have hbx : b ≤ max r (max g b) := le_trans (le_max_right _ _) (le_max_right _ _)
  have hmr : min r (min g b) ≤ r := min_le_left _ _
  have hmg : min r (min g b) ≤ g := le_trans (min_le_right _ _) (min_le_left _ _)
  have hmb : min r (min g b) ≤ b := le_trans (min_le_right _ _) (min_le_right _ _)
  by_cases hch : max r (max g b) = min r (min g b)
  · have hH : rgbToHsl r g b = ⟨0, 0, (max r (max g b) + min r (min g b)) / 2⟩ := by
      simp only [rgbToHsl]
      rw [if_pos hch]
    rw [hH]
    norm_num
  · have hmnx : min r (min g b) < max r (max g b) :=
      lt_of_le_of_ne (le_trans hmr hrx) fun hE => hch hE.symm
    have hd : (0:ℚ) < max r (max g b) - min r (min g b) := sub_pos.mpr hmnx
    have hH : rgbToHsl r g b =
        ⟨(if max r (max g b) = r then
            (g - b) / (max r (max g b) - min r (min g b)) + (if g < b then 6 else 0)
          else if max r (max g b) = g then
            (b - r) / (max r (max g b) - min r (min g b)) + 2
          else (r - g) / (max r (max g b) - min r (min g b)) + 4) / 6 * 360,
         if (max r (max g b) + min r (min g b)) / 2 > 1 / 2 then
           (max r (max g b) - min r (min g b)) /
             (2 - max r (max g b) - min r (min g b))
         else (max r (max g b) - min r (min g b)) /
             (max r (max g b) + min r (min g b)),
         (max r (max g b) + min r (min g b)) / 2⟩ := by
      simp only [rgbToHsl]
      rw [if_neg hch]
    rw [hH]
    dsimp only
    split_ifs with hxr hgb hxg
    · have hq1 : -1 ≤ (g - b) / (max r (max g b) - min r (min g b)) := by
        rw [le_div_iff₀ hd]; linarith
      have hq2 : (g - b) / (max r (max g b) - min r (min g b)) < 0 :=
        div_neg_of_neg_of_pos (by linarith) hd
      constructor <;> linarith
    · have hq1 : 0 ≤ (g - b) / (max r (max g b) - min r (min g b)) :=
        div_nonneg (by linarith [not_lt.mp hgb]) hd.le
      have hq2 : (g - b) / (max r (max g b) - min r (min g b)) ≤ 1 := by
        rw [div_le_one hd]; linarith
      constructor <;> linarith
    · have hq1 : -1 ≤ (b - r) / (max r (max g b) - min r (min g b)) := by
        rw [le_div_iff₀ hd]; linarith
      have hq2 : (b - r) / (max r (max g b) - min r (min g b)) ≤ 1 := by
        rw [div_le_one hd]; linarith
      constructor <;> linarith
    · have hq1 : -1 ≤ (r - g) / (max r (max g b) - min r (min g b)) := by
        rw [le_div_iff₀ hd]; linarith
      have hq2 : (r - g) / (max r (max g b) - min r (min g b)) ≤ 1 := by
        rw [div_le_one hd]; linarith
      constructor <;> linarith

/-- For chromatic inputs with channels in `[0, 1]`, `rgbToHsl` yields positive
saturation and lightness strictly between 0 and 1. -/
theorem rgbToHsl_sl_bounds (r g b : ℚ) (hr0 : 0 ≤ r) (hr1 : r ≤ 1) (hg0 : 0 ≤ g)
    (hg1 : g ≤ 1) (hb0 : 0 ≤ b) (hb1 : b ≤ 1)
    (hch : ¬ max r (max g b) = min r (min g b)) :
    0 < (rgbToHsl r g b).s ∧ 0 < (rgbToHsl r g b).l ∧ (rgbToHsl r g b).l < 1 := by
  have hrx : r ≤ max r (max g b) := le_max_left _ _
  have hmr : min r (min g b) ≤ r := min_le_left _ _
  have hmx1 : max r (max g b) ≤ 1 := max_le hr1 (max_le hg1 hb1)
  have hmn0 : 0 ≤ min r (min g b) := le_min hr0 (le_min hg0 hb0)
  have hmnx : min r (min g b) < max r (max g b) :=
    lt_of_le_of_ne (le_trans hmr hrx) fun hE => hch hE.symm
  have hH : rgbToHsl r g b =
      ⟨(if max r (max g b) = r then
          (g - b) / (max r (max g b) - min r (min g b)) + (if g < b then 6 else 0)
        else if max r (max g b) = g then
          (b - r) / (max r (max g b) - min r (min g b)) + 2
        else (r - g) / (max r (max g b) - min r (min g b)) + 4) / 6 * 360,
       if (max r (max g b) + min r (min g b)) / 2 > 1 / 2 then
         (max r (max g b) - min r (min g b)) /
           (2 - max r (max g b) - min r (min g b))
       else (max r (max g b) - min r (min g b)) /
           (max r (max g b) + min r (min g b)),
       (max r (max g b) + min r (min g b)) / 2⟩ := by
    simp only [rgbToHsl]
    rw [if_neg hch]
  rw [hH]
  dsimp only
  refine ⟨?_, by linarith, by linarith⟩
  split_ifs with hgt
  · exact div_pos (by linarith) (by linarith)
  · exact div_pos (by linarith) (by linarith)

theorem clamp_mem (v mn mx : ℚ) (h : mn ≤ mx) :
    mn ≤ clamp v mn mx ∧ clamp v mn mx ≤ mx := by
  unfold clamp
  exact ⟨le_max_left _ _, max_le h (min_le_left _ _)⟩

theorem insertDesc_length (a : ScoredColor) :
    ∀ l : List ScoredColor, (insertDesc a l).length = l.length + 1 := by
  intro l
  induction l with
  | nil => rfl
  | cons x xs ih =>
    simp only [insertDesc]
    split_ifs
    · simp [ih]
    · simp

theorem sortByScoreDesc_length (l : List ScoredColor) :
    (sortByScoreDesc l).length = l.length := by
  induction l with
  | nil => rfl
  | cons x xs ih =>
    simp only [sortByScoreDesc, List.foldr_cons] at ih ⊢
    rw [insertDesc_length, ih]
    rfl

theorem selectGreedy_length_le (hueSpacing : ℚ) (count : ℕ) (l : List ScoredColor) :
    ∀ (cands : List RGB) (used : List ℚ),
      cands.length ≤ (selectGreedy hueSpacing count l cands used).1.length := by
  induction l with
  | nil => intro cands used; simp [selectGreedy]
  | cons x xs ih =>
    intro cands used
    simp only [selectGreedy]
    split_ifs with h1 h2
    · simp
    · calc cands.length ≤ (cands ++ [x.color]).length := by simp
        _ ≤ _ := ih (cands ++ [x.color]) (used ++ [x.hue])
    · exact ih cands used

theorem backfillStep_length_le (scored : List ScoredColor) (count : ℕ) :
    ∀ (fuel : ℕ) (cands : List RGB),
      cands.length ≤ (backfillStep scored count fuel cands).length := by
  intro fuel
  induction fuel with
  | zero => intro cands; simp [backfillStep]
  | succ n ih =>
    intro cands
    simp only [backfillStep]
    split_ifs with h1
    · cases hfl : scored.filter (fun s => !(cands.contains s.color)) with
      | nil => exact le_refl _
      | cons s rest =>
        calc cands.length ≤ (cands ++ [s.color]).length := by simp
          _ ≤ _ := ih (cands ++ [s.color])
    · exact le_refl _

/-! ### Claim theorems -/

/-- Claim C4: for every RGB color with all channels in [0,1], composing
`rgbToHsl` and then `hslToRgb` reproduces the color within 1e-6 per channel
(over exact rational arithmetic the round trip is in fact exact). -/
theorem claimC4_roundtrip (r g b : ℚ) (hr0 : 0 ≤ r) (hr1 : r ≤ 1) (hg0 : 0 ≤ g)
    (hg1 : g ≤ 1) (hb0 : 0 ≤ b) (hb1 : b ≤ 1) :
    |(hslToRgb (rgbToHsl r g b).h (rgbToHsl r g b).s (rgbToHsl r g b).l).r - r| ≤
      1 / 1000000 ∧
    |(hslToRgb (rgbToHsl r g b).h (rgbToHsl r g b).s (rgbToHsl r g b).l).g - g| ≤
      1 / 1000000 ∧
    |(hslToRgb (rgbToHsl r g b).h (rgbToHsl r g b).s (rgbToHsl r g b).l).b - b| ≤
      1 / 1000000 := by
  rw [rgb_hsl_rgb r g b hr0 hr1 hg0 hg1 hb0 hb1]
  dsimp only
  norm_num

/-- Witness for claim C4 at the concrete color (1/3, 2/5, 9/10). -/
theorem claimC4_roundtrip_witness :
    ((0:ℚ) ≤ 1 / 3 ∧ (1 / 3 : ℚ) ≤ 1 ∧ (0:ℚ) ≤ 2 / 5 ∧ (2 / 5 : ℚ) ≤ 1 ∧
      (0:ℚ) ≤ 9 / 10 ∧ (9 / 10 : ℚ) ≤ 1) ∧
    (|(hslToRgb (rgbToHsl (1 / 3) (2 / 5) (9 / 10)).h
        (rgbToHsl (1 / 3) (2 / 5) (9 / 10)).s
        (rgbToHsl (1 / 3) (2 / 5) (9 / 10)).l).r - 1 / 3| ≤ 1 / 1000000 ∧
     |(hslToRgb (rgbToHsl (1 / 3) (2 / 5) (9 / 10)).h
        (rgbToHsl (1 / 3) (2 / 5) (9 / 10)).s
        (rgbToHsl (1 / 3) (2 / 5) (9 / 10)).l).g - 2 / 5| ≤ 1 / 1000000 ∧
     |(hslToRgb (rgbToHsl (1 / 3) (2 / 5) (9 / 10)).h
        (rgbToHsl (1 / 3) (2 / 5) (9 / 10)).s
        (rgbToHsl (1 / 3) (2 / 5) (9 / 10)).l).b - 9 / 10| ≤ 1 / 1000000) :=
  ⟨⟨by norm_num, by norm_num, by norm_num, by norm_num, by norm_num, by norm_num⟩,
   claimC4_roundtrip (1 / 3) (2 / 5) (9 / 10) (by norm_num) (by norm_num)
     (by norm_num) (by norm_num) (by norm_num) (by norm_num)⟩

/-- Claim C5: for every seed, the three members of the family built by
`buildColorFamilyFromPrimary` have lightness within [0.48, 0.60] and
saturation at least 0.80, the primary at least 0.85 — here proved exactly,
which is stronger than up to round-trip tolerance. -/
theorem claimC5_family_cohesion (seed : RGB) :
    (0.85 ≤ (rgbToHsl (buildColorFamilyFromPrimary seed).1.r
        (buildColorFamilyFromPrimary seed).1.g (buildColorFamilyFromPrimary seed).1.b).s ∧
      0.48 ≤ (rgbToHsl (buildColorFamilyFromPrimary seed).1.r
        (buildColorFamilyFromPrimary seed).1.g (buildColorFamilyFromPrimary seed).1.b).l ∧
      (rgbToHsl (buildColorFamilyFromPrimary seed).1.r
        (buildColorFamilyFromPrimary seed).1.g (buildColorFamilyFromPrimary seed).1.b).l ≤
        0.60) ∧
    (0.8 ≤ (rgbToHsl (buildColorFamilyFromPrimary seed).2.1.r
        (buildColorFamilyFromPrimary seed).2.1.g (buildColorFamilyFromPrimary seed).2.1.b).s ∧
      0.48 ≤ (rgbToHsl (buildColorFamilyFromPrimary seed).2.1.r
        (buildColorFamilyFromPrimary seed).2.1.g (buildColorFamilyFromPrimary seed).2.1.b).l ∧
      (rgbToHsl (buildColorFamilyFromPrimary seed).2.1.r
        (buildColorFamilyFromPrimary seed).2.1.g (buildColorFamilyFromPrimary seed).2.1.b).l ≤
        0.60) ∧
    (0.8 ≤ (rgbToHsl (buildColorFamilyFromPrimary seed).2.2.r
        (buildColorFamilyFromPrimary seed).2.2.g (buildColorFamilyFromPrimary seed).2.2.b).s ∧
      0.48 ≤ (rgbToHsl (buildColorFamilyFromPrimary seed).2.2.r
        (buildColorFamilyFromPrimary seed).2.2.g (buildColorFamilyFromPrimary seed).2.2.b).l ∧
      (rgbToHsl (buildColorFamilyFromPrimary seed).2.2.r
        (buildColorFamilyFromPrimary seed).2.2.g (buildColorFamilyFromPrimary seed).2.2.b).l ≤
        0.60) := by
  have hhr := rgbToHsl_h_range seed.r seed.g seed.b
  have hS : (0:ℚ) < max 0.85 (min 1 (rgbToHsl seed.r seed.g seed.b).s) :=
    lt_of_lt_of_le (by norm_num) (le_max_left _ _)
  have hS2 : (0:ℚ) < max 0.8 (max 0.85 (min 1 (rgbToHsl seed.r seed.g seed.b).s)) :=
    lt_of_lt_of_le (by norm_num) (le_max_left _ _)
  have hLb := clamp_mem (rgbToHsl seed.r seed.g seed.b).l 0.48 0.60 (by norm_num)
  have hL0 : (0:ℚ) < clamp (rgbToHsl seed.r seed.g seed.b).l 0.48 0.60 := by
    linarith [hLb.1]
  have hL1 : clamp (rgbToHsl seed.r seed.g seed.b).l 0.48 0.60 < 1 := by
    linarith [hLb.2]
  have hLb2 := clamp_mem (clamp (rgbToHsl seed.r seed.g seed.b).l 0.48 0.60) 0.48 0.60
    (by norm_num)
  have hL20 : (0:ℚ) < clamp (clamp (rgbToHsl seed.r seed.g seed.b).l 0.48 0.60) 0.48 0.60 := by
    linarith [hLb2.1]
  have hL21 : clamp (clamp (rgbToHsl seed.r seed.g seed.b).l 0.48 0.60) 0.48 0.60 < 1 := by
    linarith [hLb2.2]
  have hm2 := jsMod_mem ((rgbToHsl seed.r seed.g seed.b).h + 180) 360
    (by linarith [hhr.1]) (by norm_num)
  have hm3 := jsMod_mem ((rgbToHsl seed.r seed.g seed.b).h + 20) 360
    (by linarith [hhr.1]) (by norm_num)
  simp only [buildColorFamilyFromPrimary]
  rw [hsl_rgb_hsl _ _ _ hhr.1 hhr.2 hS hL0 hL1,
      hsl_rgb_hsl _ _ _ hm2.1 hm2.2 hS2 hL20 hL21,
      hsl_rgb_hsl _ _ _ hm3.1 hm3.2 hS2 hL20 hL21]
  exact ⟨⟨le_max_left _ _, hLb.1, hLb.2⟩, ⟨le_max_left _ _, hLb2.1, hLb2.2⟩,
    ⟨le_max_left _ _, hLb2.1, hLb2.2⟩⟩

/-- Claim C6: for every supported step count (5, 9 or 13) every generated scale
maps the midpoint label "500" to exactly the unmodified input color. -/
theorem claimC6_scale_midpoint (colors : List RGB) (steps : ℚ)
    (h : steps = 5 ∨ steps = 9 ∨ steps = 13) :
    (generateColorScales colors steps).map (fun scale => List.lookup "500" scale) =
      colors.map (fun color => some color) := by
  unfold generateColorScales
  rw [List.map_map]
  refine List.map_congr_left fun color _ => ?_
  rcases h with h | h | h <;> subst h <;> rfl

/-- Witness for claim C6 at pure red with the 5-step scale. -/
theorem claimC6_scale_midpoint_witness :
    ((5:ℚ) = 5 ∨ (5:ℚ) = 9 ∨ (5:ℚ) = 13) ∧
    (generateColorScales [⟨1, 0, 0⟩] 5).map (fun scale => List.lookup "500" scale) =
      [(⟨1, 0, 0⟩ : RGB)].map (fun color => some color) :=
  ⟨Or.inl rfl, claimC6_scale_midpoint [⟨1, 0, 0⟩] 5 (Or.inl rfl)⟩

/-- Claim C9: for every step count outside 5, 9, 13 the generated scales are
identical to the 9-step scales (silent fallback, no failure). -/
theorem claimC9_fallback_scale (colors : List RGB) (steps : ℚ)
    (h : ¬ (steps = 5 ∨ steps = 9 ∨ steps = 13)) :
    generateColorScales colors steps = generateColorScales colors 9 := by
  push_neg at h
  obtain ⟨h5, h9, h13⟩ := h
  unfold generateColorScales
  refine List.map_congr_left fun color _ => ?_
  rw [if_neg h5, if_neg h9, if_neg h13, if_neg (by norm_num : ¬(9:ℚ) = 5),
    if_pos rfl]

/-- Witness for claim C9 at the unsupported step count 7. -/
theorem claimC9_fallback_scale_witness :
    (¬ ((7:ℚ) = 5 ∨ (7:ℚ) = 9 ∨ (7:ℚ) = 13)) ∧
    generateColorScales [⟨1, 0, 0⟩] 7 = generateColorScales [⟨1, 0, 0⟩] 9 :=
  ⟨by norm_num, claimC9_fallback_scale [⟨1, 0, 0⟩] 7 (by norm_num)⟩

/-- Claim C2 fails as stated: in the explicit-user-colors pipeline the
light-mode sequence of the PaletteData has 3 entries, not 15. -/
theorem claimC2_counterexample :
    (generateColorPaletteFromSelectedColors ⟨⟨1, 0, 0⟩, ⟨0, 1, 0⟩, ⟨0, 0, 1⟩⟩
        defaultSettings).lightMode.length ≠ 15 := by
  with_unfolding_all decide

/-- Claim C2 (amended): the 15-entry family-major variant layout with light
variants lighten 0.9/0.7/0.5/0.3 and darken 0.1 holds for the pixel-seeded
path (`generateModeSpecificPalettes`); the explicit-user-colors path instead
derives one adjusted color per family color via `generateModeColors`, so its
lightMode and darkMode have 3 entries each. -/
theorem claimC2_amended (c1 c2 c3 : RGB) (settings : PaletteSettings) :
    generateModeSpecificPalettes [c1, c2, c3] =
      ([lightenColor c1 0.9, lightenColor c1 0.7, lightenColor c1 0.5,
        lightenColor c1 0.3, darkenColor c1 0.1,
        lightenColor c2 0.9, lightenColor c2 0.7, lightenColor c2 0.5,
        lightenColor c2 0.3, darkenColor c2 0.1,
        lightenColor c3 0.9, lightenColor c3 0.7, lightenColor c3 0.5,
        lightenColor c3 0.3, darkenColor c3 0.1],
       [lightenColor c1 0.8, lightenColor c1 0.6, c1, darkenColor c1 0.3,
        darkenColor c1 0.6,
        lightenColor c2 0.8, lightenColor c2 0.6, c2, darkenColor c2 0.3,
        darkenColor c2 0.6,
        lightenColor c3 0.8, lightenColor c3 0.6, c3, darkenColor c3 0.3,
        darkenColor c3 0.6]) ∧
    (generateModeSpecificPalettes [c1, c2, c3]).1.length = 15 ∧
    (generateModeSpecificPalettes [c1, c2, c3]).2.length = 15 ∧
    (generateColorPaletteFromSelectedColors ⟨c1, c2, c3⟩ settings).lightMode =
      generateModeColors [c1, c2, c3] Mode.light ∧
    (generateColorPaletteFromSelectedColors ⟨c1, c2, c3⟩ settings).lightMode.length = 3 ∧
    (generateColorPaletteFromSelectedColors ⟨c1, c2, c3⟩ settings).darkMode.length = 3 :=
  ⟨rfl, rfl, rfl, rfl, rfl, rfl⟩

/-- Claim C10: `generateAccessibleColors` is the identity, so in the
user-selected-colors pipeline the accessible sequences coincide with the mode
sequences for either accessibility setting. -/
theorem claimC10_accessible_identity (sel : SelectedColors) (settings : PaletteSettings)
    (colors : List RGB) :
    generateAccessibleColors colors = colors ∧
    (generateColorPaletteFromSelectedColors sel settings).accessibleLight =
      (generateColorPaletteFromSelectedColors sel settings).lightMode ∧
    (generateColorPaletteFromSelectedColors sel settings).accessibleDark =
      (generateColorPaletteFromSelectedColors sel settings).darkMode := by
  refine ⟨rfl, ?_, ?_⟩ <;>
    · obtain ⟨steps, acc, types⟩ := settings
      cases acc <;> rfl

/-- Claim C1 code-bug evidence at pure red: `generateComplementaryColors`
produces the hue-180 color, but the complementary entry produced by
`generateHarmonyColorsFromPrimary` does not have hue 180, because the hue
argument is divided by 360 before being passed to the degree-based
`hslToRgb`. -/
theorem claimC1_code_bug_evidence :
    (generateComplementaryColors ⟨1, 0, 0⟩).map
        (fun t => (rgbToHsl t.r t.g t.b).h) = [180] ∧
    (convertToHarmonies (generateHarmonyColorsFromPrimary ⟨1, 0, 0⟩
        ["complementary"])).complementary.map
        (fun t => (rgbToHsl t.r t.g t.b).h) ≠ [180] := by
  constructor
  · with_unfolding_all decide
  · with_unfolding_all decide

/-- Claim C3 code-bug evidence: with the default settings every harmony except
splitComplementary is non-empty; splitComplementary stays empty because the
default list holds the hyphenated string "split-complementary" while the
generator checks for "splitComplementary". -/
theorem claimC3_code_bug_evidence :
    (generateColorPaletteFromSelectedColors
        (convertSelectedColors ⟨⟨255, 0, 0⟩, ⟨0, 255, 0⟩, ⟨0, 0, 255⟩⟩)
        defaultSettings).harmonies.splitComplementary = [] ∧
    (generateColorPaletteFromSelectedColors
        (convertSelectedColors ⟨⟨255, 0, 0⟩, ⟨0, 255, 0⟩, ⟨0, 0, 255⟩⟩)
        defaultSettings).harmonies.analogous ≠ [] ∧
    (generateColorPaletteFromSelectedColors
        (convertSelectedColors ⟨⟨255, 0, 0⟩, ⟨0, 255, 0⟩, ⟨0, 0, 255⟩⟩)
        defaultSettings).harmonies.complementary ≠ [] ∧
    (generateColorPaletteFromSelectedColors
        (convertSelectedColors ⟨⟨255, 0, 0⟩, ⟨0, 255, 0⟩, ⟨0, 0, 255⟩⟩)
        defaultSettings).harmonies.triadic ≠ [] := by
  refine ⟨?_, ?_, ?_, ?_⟩ <;> with_unfolding_all decide

/-- Claim C7 as stated is false: the triadic list built by
`generateHarmonyColorsFromPrimary` has three entries (it starts with the base
color), not exactly two; and for the achromatic base (1/2, 1/2, 1/2) even
`generateTriadicColors` yields members whose hue is 0, not 120/240. -/
theorem claimC7_counterexample :
    (convertToHarmonies (generateHarmonyColorsFromPrimary ⟨1, 0, 0⟩
        ["triadic"])).triadic.length ≠ 2 ∧
    (generateTriadicColors ⟨1 / 2, 1 / 2, 1 / 2⟩).map
        (fun t => (rgbToHsl t.r t.g t.b).h) ≠
      [jsMod ((rgbToHsl (1 / 2) (1 / 2) (1 / 2)).h + 120) 360,
       jsMod ((rgbToHsl (1 / 2) (1 / 2) (1 / 2)).h + 240) 360] := by
  constructor
  · with_unfolding_all decide
  · with_unfolding_all decide

/-- Claim C7 (amended): for every chromatic base color with channels in [0,1],
`generateTriadicColors` produces exactly two colors whose HSL decompositions
are (base hue + 120) mod 360 and (base hue + 240) mod 360 with the base
saturation and lightness; the `generateHarmonyColorsFromPrimary` path does not
satisfy the claim (see the counterexample). -/
theorem claimC7_amended (c : RGB) (hr0 : 0 ≤ c.r) (hr1 : c.r ≤ 1) (hg0 : 0 ≤ c.g)
    (hg1 : c.g ≤ 1) (hb0 : 0 ≤ c.b) (hb1 : c.b ≤ 1)
    (hch : ¬ max c.r (max c.g c.b) = min c.r (min c.g c.b)) :
    (generateTriadicColors c).map (fun t => rgbToHsl t.r t.g t.b) =
      [⟨jsMod ((rgbToHsl c.r c.g c.b).h + 120) 360, (rgbToHsl c.r c.g c.b).s,
        (rgbToHsl c.r c.g c.b).l⟩,
       ⟨jsMod ((rgbToHsl c.r c.g c.b).h + 240) 360, (rgbToHsl c.r c.g c.b).s,
        (rgbToHsl c.r c.g c.b).l⟩] := by
  have hhr := rgbToHsl_h_range c.r c.g c.b
  have hslb := rgbToHsl_sl_bounds c.r c.g c.b hr0 hr1 hg0 hg1 hb0 hb1 hch
  have hm1 := jsMod_mem ((rgbToHsl c.r c.g c.b).h + 120) 360
    (by linarith [hhr.1]) (by norm_num)
  have hm2 := jsMod_mem ((rgbToHsl c.r c.g c.b).h + 240) 360
    (by linarith [hhr.1]) (by norm_num)
  simp only [generateTriadicColors, List.map_cons, List.map_nil]
  rw [show (rgbToHsl c.r c.g c.b).h + 1 * 120 = (rgbToHsl c.r c.g c.b).h + 120 by ring,
      show (rgbToHsl c.r c.g c.b).h + 2 * 120 = (rgbToHsl c.r c.g c.b).h + 240 by ring]
  rw [hsl_rgb_hsl _ _ _ hm1.1 hm1.2 hslb.1 hslb.2.1 hslb.2.2,
      hsl_rgb_hsl _ _ _ hm2.1 hm2.2 hslb.1 hslb.2.1 hslb.2.2]

/-- Witness for the amended claim C7 at pure red. -/
theorem claimC7_amended_witness :
    ((0:ℚ) ≤ 1 ∧ (1:ℚ) ≤ 1 ∧ (0:ℚ) ≤ 0 ∧ (0:ℚ) ≤ 1 ∧
      ¬ max (1:ℚ) (max 0 0) = min (1:ℚ) (min 0 0)) ∧
    (generateTriadicColors ⟨1, 0, 0⟩).map (fun t => rgbToHsl t.r t.g t.b) =
      [⟨jsMod ((rgbToHsl 1 0 0).h + 120) 360, (rgbToHsl 1 0 0).s, (rgbToHsl 1 0 0).l⟩,
       ⟨jsMod ((rgbToHsl 1 0 0).h + 240) 360, (rgbToHsl 1 0 0).s, (rgbToHsl 1 0 0).l⟩] :=
  ⟨⟨by with_unfolding_all decide, by with_unfolding_all decide, by with_unfolding_all decide, by with_unfolding_all decide, by with_unfolding_all decide⟩,
   claimC7_amended ⟨1, 0, 0⟩ (by with_unfolding_all decide) (by with_unfolding_all decide) (by with_unfolding_all decide) (by with_unfolding_all decide)
     (by with_unfolding_all decide) (by with_unfolding_all decide) (by with_unfolding_all decide)⟩

/-- Claim C8: for every non-empty candidate list and requested count at least
one, `selectBestPrimaryCandidates` returns a non-empty list — the first sorted
candidate is always accepted because the first two acceptances skip the hue
filter, and the greedy and backfill phases never remove candidates. -/
theorem claimC8_candidates_nonempty (colors : List RGB) (count : ℕ)
    (hne : colors ≠ []) (hc : 1 ≤ count) :
    selectBestPrimaryCandidates colors count ≠ [] := by
  unfold selectBestPrimaryCandidates
  dsimp only
  have hpos : 0 < (sortByScoreDesc (colors.map scoreColor)).length := by
    rw [sortByScoreDesc_length, List.length_map]
    exact List.length_pos.mpr hne
  obtain ⟨x, xs, hxe⟩ := List.exists_cons_of_ne_nil (List.length_pos.mp hpos)
  rw [hxe]
  have hstep : selectGreedy ((360:ℚ) / (count:ℚ)) count (x :: xs) [] [] =
      selectGreedy ((360:ℚ) / (count:ℚ)) count xs [x.color] [x.hue] := by
    simp only [selectGreedy, List.length_nil, List.any_nil, List.nil_append]
    rw [if_neg (by omega), if_pos (Or.inr (by norm_num))]
  rw [hstep]
  refine List.length_pos.mp ?_
  calc (0:ℕ) < 1 := one_pos
    _ ≤ ([x.color] : List RGB).length := by simp
    _ ≤ (selectGreedy ((360:ℚ) / (count:ℚ)) count xs [x.color] [x.hue]).1.length :=
      selectGreedy_length_le _ _ xs _ _
    _ ≤ _ := backfillStep_length_le _ _ _ _

/-- Witness for claim C8: three identical red candidates and count 3 still
yield a non-empty selection. -/
theorem claimC8_candidates_nonempty_witness :
    (([⟨1, 0, 0⟩, ⟨1, 0, 0⟩, ⟨1, 0, 0⟩] : List RGB) ≠ [] ∧ 1 ≤ 3) ∧
    selectBestPrimaryCandidates [⟨1, 0, 0⟩, ⟨1, 0, 0⟩, ⟨1, 0, 0⟩] 3 ≠ [] :=
  ⟨⟨by with_unfolding_all decide, by with_unfolding_all decide⟩,
   claimC8_candidates_nonempty [⟨1, 0, 0⟩, ⟨1, 0, 0⟩, ⟨1, 0, 0⟩] 3 (by with_unfolding_all decide) (by with_unfolding_all decide)⟩

end Palette